import Mathlib

/-!
Verification of the tide-driven sampler launcher (src/livox_launch.py).

Shallow embedding: Python datetime values are modelled as natural numbers
counting microseconds since an hour-aligned epoch (Python datetimes are
always nonnegative and the year-1 origin is aligned to an hour boundary),
so the datetime fields minute, second and microsecond are the usual
quotient/remainder expressions and timedelta arithmetic is integer
arithmetic on microseconds.  Fallible Python operations are embedded as
functions returning Except PyError, with PyError naming the exception the
source would raise; outcomes of I/O (the HTTP fetch, the config load) are
inputs to the embedded functions.
-/

namespace LivoxLaunch

/-- A Python datetime, as microseconds since an hour-aligned epoch. -/
abbrev DateTime := Nat

def usPerSecond : Nat := 1000000

def usPerMinute : Nat := 60000000

def usPerHour : Nat := 3600000000

/-- The minute field of a datetime (0..59). -/
def DateTime.minute (dt : DateTime) : Nat := dt / usPerMinute % 60

/-- The second field of a datetime (0..59). -/
def DateTime.second (dt : DateTime) : Nat := dt / usPerSecond % 60

/-- The microsecond field of a datetime (0..999999). -/
def DateTime.microsecond (dt : DateTime) : Nat := dt % usPerSecond

/-- Exceptions the source can raise on the paths we model. -/
inductive PyError
  | valueError
  | keyError
  | unboundLocalError
  | attributeError
deriving DecidableEq

/-- Outcome of applying strptime with format "%Y-%m-%d %H:%M" to the t
field of a prediction record: either it denotes a datetime, or the string
is not in that format and strptime raises ValueError. -/
inductive TimeStr
  | valid (dt : DateTime)
  | malformed
deriving DecidableEq

/-- Source parse_datetime: datetime.strptime(datetime_str, "%Y-%m-%d %H:%M"),
which raises ValueError when the string is not in that format. -/
def parse_datetime : TimeStr → Except PyError DateTime
  | .valid dt => .ok dt
  | .malformed => .error .valueError

/-- One prediction record from the JSON body: the raw t field (as its
strptime outcome) and the type tag string. -/
structure Prediction where
  t : TimeStr
  type : String
deriving DecidableEq

/-- Accumulator of the analyzer loop: closest past and closest future
high-tide datetimes found so far. -/
abbrev TideState := Option DateTime × Option DateTime

/-- Loop body of find_closest_high_tides for one record whose t field
parsed to pred_datetime and whose type tag is ty: high-tide records with
pred_datetime less than or equal to now update the past candidate when
strictly later than the current best; the others update the future
candidate when strictly earlier than the current best. -/
def tide_step (now pred_datetime : DateTime) (ty : String) (st : TideState) : TideState :=
  if ty = "H" then
    if pred_datetime ≤ now then
      (match st.1 with
       | none => some pred_datetime
       | some b => if b < pred_datetime then some pred_datetime else some b,
       st.2)
    else
      (st.1,
       match st.2 with
       | none => some pred_datetime
       | some b => if pred_datetime < b then some pred_datetime else some b)
  else st

/-- The loop of find_closest_high_tides: each record's t field is parsed
first (raising ValueError on a malformed one, whatever its type tag) and
then folded into the state. -/
def fchtAux (now : DateTime) : List Prediction → TideState → Except PyError TideState
  | [], st => .ok st
  | p :: rest, st =>
    match parse_datetime p.t with
    | .error e => .error e
    | .ok dt => fchtAux now rest (tide_step now dt p.type st)

/-- Source find_closest_high_tides: scan the prediction list once, tracking
the closest past and closest future high tides relative to now. -/
def find_closest_high_tides (now : DateTime) (predictions : List Prediction) :
    Except PyError TideState :=
  fchtAux now predictions (none, none)

/-- Source round_to_nearest_hour: add one hour when the minute field is at
least 30, then replace minute, second and microsecond by zero (truncation
to the hour boundary). -/
def round_to_nearest_hour (dt : DateTime) : DateTime :=
  let dt2 := if 30 ≤ dt.minute then dt + usPerHour else dt
  dt2 / usPerHour * usPerHour

/-- Outcome of parsing the HTTP response body with response.json: it
raises ValueError when the body is unparseable (malformed); otherwise the
parsed value is an object carrying a predictions array, an object without
that key (then the .get call returns the empty-list default), or a value
whose top level is not an object at all (a list, string, number or null),
on which the .get attribute lookup raises AttributeError. -/
inductive JsonBody
  | malformed
  | objWithPredictions (predictions : List Prediction)
  | objWithoutPredictions
  | nonObject

/-- Outcome of the requests.get call: a transport error (some
requests.RequestException raised during the call) or a response with a
success flag (raise_for_status raises on a bad status) and a body. -/
inductive HttpResult
  | transportError
  | response (statusOk : Bool) (body : JsonBody)

/-- Source get_tide_predictions: on a transport error, a bad HTTP status
or an unparseable body the except clause catches the raised
RequestException or ValueError and returns None after logging; on success
with an object body it returns the predictions array, defaulting to the
empty list when the key is absent.  On success with a parseable body
whose top level is not an object the .get call raises AttributeError,
which the except clause (RequestException, ValueError) does not catch, so
that exception propagates to the caller. -/
def get_tide_predictions : HttpResult → Except PyError (Option (List Prediction))
  | .transportError => .ok none
  | .response false _ => .ok none
  | .response true .malformed => .ok none
  | .response true (.objWithPredictions l) => .ok (some l)
  | .response true .objWithoutPredictions => .ok (some [])
  | .response true .nonObject => .error .attributeError

def NEAREST_COOPS : String := "9410230"

def DEFAULT_SAMP_TIME : Nat := 300

/-- Lines 107-117 of main: when both candidates exist pick the past one
when now minus past is at most future minus now, otherwise the future
one; with one candidate take it; with none take nothing. -/
def choose_closest_high_tide (now : DateTime) (past future : Option DateTime) :
    Option DateTime :=
  match past, future with
  | some p, some f => if (now : Int) - p ≤ (f : Int) - now then some p else some f
  | some p, none => some p
  | none, some f => some f
  | none, none => none

/-- Lines 106-126 of main: choose the single closest high tide from the
analyzer state, and set the sampling time to 25 minutes when now lies
between two hours before and three hours after the chosen tide rounded to
the nearest hour, and to the default otherwise. -/
def select_samp_time (now : DateTime) (default_samp_time : Nat) (st : TideState) : Nat :=
  match choose_closest_high_tide now st.1 st.2 with
  | some t =>
      if (round_to_nearest_hour t : Int) - 2 * usPerHour ≤ now ∧
         (now : Int) ≤ round_to_nearest_hour t + 3 * usPerHour then 25 * 60
      else default_samp_time
  | none => default_samp_time

/-- Lines 97-126 of main: when the fetch returned None use the default
sampling time, otherwise run the analyzer (which can raise ValueError on
a malformed t field) and select the sampling time from its result. -/
def tide_samp_time (predictions : Option (List Prediction)) (now : DateTime)
    (default_samp_time : Nat) : Except PyError Nat :=
  match predictions with
  | none => .ok default_samp_time
  | some preds =>
    match find_closest_high_tides now preds with
    | .error e => .error e
    | .ok st => .ok (select_samp_time now default_samp_time st)

/-- Lines 130-136 of main: the child process is launched unless the
current minute is exactly 30 and the sampling time differs from 25
minutes. -/
def launches (samp_time current_minute : Nat) : Bool :=
  !(current_minute == 30 && samp_time != 25 * 60)

/-- The loaded config dictionary: the fqdn_ip key may be absent (then
the subscript in main raises KeyError) and the nested sampling.time key
may be absent (then the chained .get calls return the default). -/
structure ConfigDict where
  fqdn_ip : Option String
  sampling_time : Option Nat

/-- What a completed run did: the sampling time it settled on and whether
it invoked the child process (launch failures are caught and logged, so
they do not change the outcome kind). -/
structure RunResult where
  samp_time : Nat
  launched : Bool
deriving DecidableEq

/-- Source main, lines 82-145: config is the load_config outcome and fetch
maps a station id to the value the tide fetch returned (the prediction
list, or None on a caught failure; the fetch outcome on which the tide
client itself raises is covered by the tide-client theorems).  On a
successful config load the source reads config with the fqdn_ip subscript
(KeyError when absent) and then, since the coops variable is only ever
assigned in the failure branch, the fetch call raises UnboundLocalError.
On a failed load it falls back to the defaults, fetches, selects the
sampling time and applies the minute-30 gate. -/
def runMain (config : Option ConfigDict) (fetch : String → Option (List Prediction))
    (now : DateTime) : Except PyError RunResult :=
  match config with
  | some cfg =>
    match cfg.fqdn_ip with
    | none => .error .keyError
    | some _ => .error .unboundLocalError
  | none =>
    match tide_samp_time (fetch NEAREST_COOPS) now DEFAULT_SAMP_TIME with
    | .error e => .error e
    | .ok samp_time => .ok ⟨samp_time, launches samp_time now.minute⟩

/-- The timestamps of high-tide records at or before now, in list order
(the set whose maximum the analyzer is claimed to return). -/
def pastCandidates (now : DateTime) (preds : List Prediction) : List DateTime :=
  preds.filterMap fun p =>
    match p.t with
    | .valid dt => if p.type = "H" ∧ dt ≤ now then some dt else none
    | .malformed => none

/-- The timestamps of high-tide records strictly after now, in list order
(the set whose minimum the analyzer is claimed to return). -/
def futureCandidates (now : DateTime) (preds : List Prediction) : List DateTime :=
  preds.filterMap fun p =>
    match p.t with
    | .valid dt => if p.type = "H" ∧ now < dt then some dt else none
    | .malformed => none

/-- The update the loop applies to the past candidate: replace the best
only on a strictly later timestamp. -/
def bumpMax (acc : Option DateTime) (d : DateTime) : Option DateTime :=
  match acc with
  | none => some d
  | some b => if b < d then some d else some b

/-- The update the loop applies to the future candidate: replace the best
only on a strictly earlier timestamp. -/
def bumpMin (acc : Option DateTime) (d : DateTime) : Option DateTime :=
  match acc with
  | none => some d
  | some b => if d < b then some d else some b

/-- The spec-side characterization of the analyzer result: the scan
succeeds, the past component is exactly the maximum high-tide timestamp
at or before now (absent when there is none), the future component is
exactly the minimum high-tide timestamp after now (absent when there is
none), and low-tide records never affect the result (restricting the
input to its high-tide records gives the same answer). -/
def AnalyzerSpec (now : DateTime) (preds : List Prediction) : Prop :=
  ∃ past future,
    find_closest_high_tides now preds = .ok (past, future) ∧
    (past = none ↔ pastCandidates now preds = []) ∧
    (∀ d, past = some d →
      d ∈ pastCandidates now preds ∧ ∀ x ∈ pastCandidates now preds, x ≤ d) ∧
    (future = none ↔ futureCandidates now preds = []) ∧
    (∀ d, future = some d →
      d ∈ futureCandidates now preds ∧ ∀ x ∈ futureCandidates now preds, d ≤ x) ∧
    find_closest_high_tides now (preds.filter fun p => p.type == "H") = .ok (past, future)

/-- High-tide mode as the spec states it: some closest high tide was
identified and now lies between two hours before and three hours after
that tide rounded to the nearest hour. -/
def HighTideCond (now : DateTime) (st : TideState) : Prop :=
  ∃ t, choose_closest_high_tide now st.1 st.2 = some t ∧
    (round_to_nearest_hour t : Int) - 2 * usPerHour ≤ now ∧
    (now : Int) ≤ round_to_nearest_hour t + 3 * usPerHour

-- Helper lemmas about the microsecond representation.

lemma usPerHour_eq_min : usPerHour = 60 * usPerMinute := by
  simp [usPerHour, usPerMinute]

lemma usPerHour_eq_sec : usPerHour = 3600 * usPerSecond := by
  simp [usPerHour, usPerSecond]

lemma minute_mul_usPerHour (q : Nat) : DateTime.minute (q * usPerHour) = 0 := by
  simp [DateTime.minute, usPerHour_eq_min, ← Nat.mul_assoc,
    Nat.mul_div_cancel _ (by simp [usPerMinute] : 0 < usPerMinute)]

lemma second_mul_usPerHour (q : Nat) : DateTime.second (q * usPerHour) = 0 := by
  have h : q * usPerHour = q * 3600 * usPerSecond := by
    rw [usPerHour_eq_sec]; ring
  have h2 : q * 3600 * usPerSecond / usPerSecond = q * 3600 :=
    Nat.mul_div_cancel _ (by simp [usPerSecond])
  simp [DateTime.second, h, h2, Nat.mul_mod]

lemma microsecond_mul_usPerHour (q : Nat) : DateTime.microsecond (q * usPerHour) = 0 := by
  have h : q * usPerHour = q * 3600 * usPerSecond := by
    rw [usPerHour_eq_sec]; ring
  simp [DateTime.microsecond, h, Nat.mul_mod_left]

lemma round_eq_mul (dt : DateTime) :
    ∃ q, round_to_nearest_hour dt = q * usPerHour := by
  exact ⟨_, rfl⟩

lemma round_mul_usPerHour (q : Nat) :
    round_to_nearest_hour (q * usPerHour) = q * usPerHour := by
  have hm := minute_mul_usPerHour q
  have hpos : 0 < usPerHour := by simp [usPerHour]
  simp [round_to_nearest_hour, hm, Nat.mul_div_cancel _ hpos]

/-- C5: round_to_nearest_hour zeroes the minute, second and microsecond
fields; it keeps the hour slot when the minute field is below 30 and moves
one hour forward when it is at least 30; a datetime at 14:29 rounds to
14:00 and one at 14:30 rounds to 15:00. -/
theorem C5_round_to_nearest_hour :
    (∀ dt : DateTime,
      DateTime.minute (round_to_nearest_hour dt) = 0 ∧
      DateTime.second (round_to_nearest_hour dt) = 0 ∧
      DateTime.microsecond (round_to_nearest_hour dt) = 0 ∧
      round_to_nearest_hour dt / usPerHour =
        dt / usPerHour + (if 30 ≤ DateTime.minute dt then 1 else 0)) ∧
    round_to_nearest_hour 52140000000 = 50400000000 ∧
    round_to_nearest_hour 52200000000 = 54000000000 := by
  refine ⟨fun dt => ?_, by decide, by decide⟩
  have hpos : 0 < usPerHour := by simp [usPerHour]
  refine ⟨minute_mul_usPerHour _, second_mul_usPerHour _, microsecond_mul_usPerHour _, ?_⟩
  unfold round_to_nearest_hour
  rcases Nat.lt_or_ge dt.minute 30 with h | h
  · have hif : ¬ (30 ≤ dt.minute) := Nat.not_le.mpr h
    simp [hif, Nat.mul_div_cancel _ hpos]
  · simp [h, Nat.mul_div_cancel _ hpos, Nat.add_div_right _ hpos]

/-- C9: round_to_nearest_hour is idempotent, since its result is always on
an exact hour boundary. -/
theorem C9_round_idempotent :
    ∀ dt : DateTime,
      round_to_nearest_hour (round_to_nearest_hour dt) = round_to_nearest_hour dt := by
  intro dt
  obtain ⟨q, hq⟩ := round_eq_mul dt
  rw [hq, round_mul_usPerHour]

-- Characterization of the two fold updates of the analyzer loop.

lemma bumpMax_spec (acc : Option DateTime) (a : DateTime) :
    ∃ c, bumpMax acc a = some c ∧ a ≤ c ∧ (∀ b, acc = some b → b ≤ c) ∧
      (c = a ∨ acc = some c) := by
  cases acc with
  | none =>
    refine ⟨a, rfl, Nat.le_refl a, ?_, Or.inl rfl⟩
    intro b hb
    simp at hb
  | some b =>
    by_cases h : b < a
    · refine ⟨a, by simp [bumpMax, h], Nat.le_refl a, ?_, Or.inl rfl⟩
      intro b2 hb2
      rw [← Option.some.inj hb2]
      exact Nat.le_of_lt h
    · refine ⟨b, by simp [bumpMax, h], Nat.le_of_not_lt h, ?_, Or.inr rfl⟩
      intro b2 hb2
      rw [← Option.some.inj hb2]

lemma bumpMin_spec (acc : Option DateTime) (a : DateTime) :
    ∃ c, bumpMin acc a = some c ∧ c ≤ a ∧ (∀ b, acc = some b → c ≤ b) ∧
      (c = a ∨ acc = some c) := by
  cases acc with
  | none =>
    refine ⟨a, rfl, Nat.le_refl a, ?_, Or.inl rfl⟩
    intro b hb
    simp at hb
  | some b =>
    by_cases h : a < b
    · refine ⟨a, by simp [bumpMin, h], Nat.le_refl a, ?_, Or.inl rfl⟩
      intro b2 hb2
      rw [← Option.some.inj hb2]
      exact Nat.le_of_lt h
    · refine ⟨b, by simp [bumpMin, h], Nat.le_of_not_lt h, ?_, Or.inr rfl⟩
      intro b2 hb2
      rw [← Option.some.inj hb2]

lemma foldl_bumpMax_spec (l : List DateTime) :
    ∀ acc : Option DateTime,
      (l.foldl bumpMax acc = none ↔ l = [] ∧ acc = none) ∧
      (∀ d, l.foldl bumpMax acc = some d →
        (d ∈ l ∨ acc = some d) ∧ (∀ x ∈ l, x ≤ d) ∧ (∀ b, acc = some b → b ≤ d)) := by
  induction l with
  | nil =>
    intro acc
    refine ⟨by simp, fun d hd => ⟨Or.inr hd, by simp, fun b hb => ?_⟩⟩
    rw [List.foldl_nil] at hd
    rw [hd] at hb
    rw [Option.some.inj hb]
  | cons a l ih =>
    intro acc
    obtain ⟨c, hc, hac, hbc, hor⟩ := bumpMax_spec acc a
    have hfold : (a :: l).foldl bumpMax acc = l.foldl bumpMax (bumpMax acc a) := rfl
    constructor
    · rw [hfold, hc]
      constructor
      · intro hnone
        rcases ((ih (some c)).1).mp hnone with ⟨_, h2⟩
        exact absurd h2 (by simp)
      · rintro ⟨h1, _⟩
        exact absurd h1 (by simp)
    · intro d hd
      rw [hfold, hc] at hd
      obtain ⟨h1, h2, h3⟩ := (ih (some c)).2 d hd
      have hcd : c ≤ d := h3 c rfl
      refine ⟨?_, ?_, ?_⟩
      · rcases h1 with h | h
        · exact Or.inl (List.mem_cons_of_mem _ h)
        · have hcd2 : c = d := Option.some.inj h
          rcases hor with h4 | h4
          · exact Or.inl (by rw [← hcd2, h4]; exact List.mem_cons_self a l)
          · exact Or.inr (by rw [h4, hcd2])
      · intro x hx
        rcases List.mem_cons.mp hx with rfl | hx
        · exact Nat.le_trans hac hcd
        · exact h2 x hx
      · intro b hb
        exact Nat.le_trans (hbc b hb) hcd

lemma foldl_bumpMin_spec (l : List DateTime) :
    ∀ acc : Option DateTime,
      (l.foldl bumpMin acc = none ↔ l = [] ∧ acc = none) ∧
      (∀ d, l.foldl bumpMin acc = some d →
        (d ∈ l ∨ acc = some d) ∧ (∀ x ∈ l, d ≤ x) ∧ (∀ b, acc = some b → d ≤ b)) := by
  induction l with
  | nil =>
    intro acc
    refine ⟨by simp, fun d hd => ⟨Or.inr hd, by simp, fun b hb => ?_⟩⟩
    rw [List.foldl_nil] at hd
    rw [hd] at hb
    rw [Option.some.inj hb]
  | cons a l ih =>
    intro acc
    obtain ⟨c, hc, hac, hbc, hor⟩ := bumpMin_spec acc a
    have hfold : (a :: l).foldl bumpMin acc = l.foldl bumpMin (bumpMin acc a) := rfl
    constructor
    · rw [hfold, hc]
      constructor
      · intro hnone
        rcases ((ih (some c)).1).mp hnone with ⟨_, h2⟩
        exact absurd h2 (by simp)
      · rintro ⟨h1, _⟩
        exact absurd h1 (by simp)
    · intro d hd
      rw [hfold, hc] at hd
      obtain ⟨h1, h2, h3⟩ := (ih (some c)).2 d hd
      have hcd : d ≤ c := h3 c rfl
      refine ⟨?_, ?_, ?_⟩
      · rcases h1 with h | h
        · exact Or.inl (List.mem_cons_of_mem _ h)
        · have hcd2 : c = d := Option.some.inj h
          rcases hor with h4 | h4
          · exact Or.inl (by rw [← hcd2, h4]; exact List.mem_cons_self a l)
          · exact Or.inr (by rw [h4, hcd2])
      · intro x hx
        rcases List.mem_cons.mp hx with rfl | hx
        · exact Nat.le_trans hcd hac
        · exact h2 x hx
      · intro b hb
        exact Nat.le_trans hcd (hbc b hb)

-- The loop body in terms of the two fold updates, and the scan as a fold
-- over the candidate lists.

lemma tide_step_eq (now dt : DateTime) (ty : String) (st : TideState) :
    tide_step now dt ty st =
      ((if ty = "H" ∧ dt ≤ now then bumpMax st.1 dt else st.1),
       (if ty = "H" ∧ now < dt then bumpMin st.2 dt else st.2)) := by
  by_cases h1 : ty = "H"
  · by_cases h2 : dt ≤ now
    · have h3 : ¬ (now < dt) := Nat.not_lt.mpr h2
      simp [tide_step, bumpMax, h1, h2, h3]
    · have h3 : now < dt := Nat.lt_of_not_le h2
      simp [tide_step, bumpMin, h1, h2, h3]
  · simp [tide_step, h1]

lemma pastCandidates_cons (now : DateTime) (p : Prediction) (rest : List Prediction)
    (d : DateTime) (hd : p.t = TimeStr.valid d) :
    pastCandidates now (p :: rest) =
      (if p.type = "H" ∧ d ≤ now then d :: pastCandidates now rest
       else pastCandidates now rest) := by
  simp only [pastCandidates, List.filterMap_cons, hd]
  by_cases h : p.type = "H" ∧ d ≤ now
  · simp [h]
  · simp [h]

lemma futureCandidates_cons (now : DateTime) (p : Prediction) (rest : List Prediction)
    (d : DateTime) (hd : p.t = TimeStr.valid d) :
    futureCandidates now (p :: rest) =
      (if p.type = "H" ∧ now < d then d :: futureCandidates now rest
       else futureCandidates now rest) := by
  simp only [futureCandidates, List.filterMap_cons, hd]
  by_cases h : p.type = "H" ∧ now < d
  · simp [h]
  · simp [h]

lemma fchtAux_ok (now : DateTime) :
    ∀ (preds : List Prediction) (st : TideState),
      (∀ p ∈ preds, ∃ d, p.t = TimeStr.valid d) →
      fchtAux now preds st =
        .ok ((pastCandidates now preds).foldl bumpMax st.1,
             (futureCandidates now preds).foldl bumpMin st.2) := by
  intro preds
  induction preds with
  | nil =>
    intro st _
    simp [fchtAux, pastCandidates, futureCandidates]
  | cons p rest ih =>
    intro st hv
    obtain ⟨d, hd⟩ := hv p (List.mem_cons_self p rest)
    have hrest : ∀ q ∈ rest, ∃ d2, q.t = TimeStr.valid d2 :=
      fun q hq => hv q (List.mem_cons_of_mem p hq)
    have hstep := tide_step_eq now d p.type st
    have hgoal : fchtAux now (p :: rest) st =
        fchtAux now rest (tide_step now d p.type st) := by
      simp [fchtAux, hd, parse_datetime]
    rw [hgoal, ih _ hrest, hstep,
      pastCandidates_cons now p rest d hd, futureCandidates_cons now p rest d hd]
    by_cases h1 : p.type = "H" ∧ d ≤ now
    · have h3 : ¬ (now < d) := Nat.not_lt.mpr h1.2
      simp [h1, h3]
    · by_cases h2 : p.type = "H" ∧ now < d
      · have h3 : ¬ (d ≤ now) := Nat.not_le.mpr h2.2
        simp [h1, h2, h3]
      · simp [h1, h2]

lemma pastCandidates_filterH (now : DateTime) (preds : List Prediction) :
    pastCandidates now (preds.filter fun p => p.type == "H") = pastCandidates now preds := by
  unfold pastCandidates
  rw [List.filterMap_filter]
  congr 1
  funext p
  by_cases h : p.type = "H"
  · simp [h]
  · have hb : (p.type == "H") = false := by simp [h]
    rw [hb]
    simp only [Bool.false_eq_true, if_false]
    cases hp : p.t with
    | valid d => simp [h]
    | malformed => rfl

lemma futureCandidates_filterH (now : DateTime) (preds : List Prediction) :
    futureCandidates now (preds.filter fun p => p.type == "H") = futureCandidates now preds := by
  unfold futureCandidates
  rw [List.filterMap_filter]
  congr 1
  funext p
  by_cases h : p.type = "H"
  · simp [h]
  · have hb : (p.type == "H") = false := by simp [h]
    rw [hb]
    simp only [Bool.false_eq_true, if_false]
    cases hp : p.t with
    | valid d => simp [h]
    | malformed => rfl

-- The sampling-interval selector against the high-tide condition, and the
-- minute-30 gate as a proposition.

lemma select_samp_time_eq (now : DateTime) (default_samp_time : Nat) (st : TideState) :
    (HighTideCond now st → select_samp_time now default_samp_time st = 25 * 60) ∧
    (¬ HighTideCond now st → select_samp_time now default_samp_time st = default_samp_time) := by
  cases hch : choose_closest_high_tide now st.1 st.2 with
  | none =>
    constructor
    · rintro ⟨t, ht, _⟩
      rw [hch] at ht
      cases ht
    · intro _
      simp [select_samp_time, hch]
  | some t =>
    by_cases hw : (round_to_nearest_hour t : Int) - 2 * usPerHour ≤ now ∧
        (now : Int) ≤ round_to_nearest_hour t + 3 * usPerHour
    · constructor
      · intro _
        simp only [select_samp_time, hch]
        rw [if_pos hw]
      · intro hn
        exact absurd ⟨t, hch, hw.1, hw.2⟩ hn
    · constructor
      · rintro ⟨t2, ht2, hw1, hw2⟩
        rw [hch] at ht2
        rw [← Option.some.inj ht2] at hw1 hw2
        exact absurd ⟨hw1, hw2⟩ hw
      · intro _
        simp only [select_samp_time, hch]
        rw [if_neg hw]

lemma tide_samp_time_some (now : DateTime) (default_samp_time : Nat)
    (preds : List Prediction) (st : TideState)
    (hfind : find_closest_high_tides now preds = .ok st) :
    tide_samp_time (some preds) now default_samp_time =
      .ok (select_samp_time now default_samp_time st) := by
  simp [tide_samp_time, hfind]

lemma launches_eq_false_iff (s m : Nat) :
    launches s m = false ↔ (m = 30 ∧ s ≠ 25 * 60) := by
  simp [launches]

/-- C2: on any prediction list whose t fields are all well-formed, the
analyzer scans once and returns exactly the maximum high-tide timestamp at
or before now and the minimum high-tide timestamp after now, each absent
when no such record exists; low-tide records never affect the result; and
the loop body ignores a record whose timestamp equals the current best, so
the first-encountered record of a duplicated timestamp is kept. -/
theorem C2_analyzer (now : DateTime) (preds : List Prediction)
    (hv : ∀ p ∈ preds, ∃ d, p.t = TimeStr.valid d) :
    AnalyzerSpec now preds ∧
    (∀ dt st, st.1 = some dt → (tide_step now dt "H" st).1 = st.1) ∧
    (∀ dt st, st.2 = some dt → (tide_step now dt "H" st).2 = st.2) := by
  refine ⟨?_, ?_, ?_⟩
  · have hfind := fchtAux_ok now preds (none, none) hv
    have hvF : ∀ p ∈ preds.filter (fun p => p.type == "H"), ∃ d, p.t = TimeStr.valid d :=
      fun p hp => hv p (List.mem_of_mem_filter hp)
    have hfindF := fchtAux_ok now (preds.filter fun p => p.type == "H") (none, none) hvF
    refine ⟨(pastCandidates now preds).foldl bumpMax none,
            (futureCandidates now preds).foldl bumpMin none, hfind, ?_, ?_, ?_, ?_, ?_⟩
    · rw [(foldl_bumpMax_spec _ none).1]
      simp
    · intro d hd
      obtain ⟨h1, h2, _⟩ := (foldl_bumpMax_spec _ none).2 d hd
      rcases h1 with h | h
      · exact ⟨h, h2⟩
      · exact absurd h (by simp)
    · rw [(foldl_bumpMin_spec _ none).1]
      simp
    · intro d hd
      obtain ⟨h1, h2, _⟩ := (foldl_bumpMin_spec _ none).2 d hd
      rcases h1 with h | h
      · exact ⟨h, h2⟩
      · exact absurd h (by simp)
    · have hF := hfindF
      rw [pastCandidates_filterH, futureCandidates_filterH] at hF
      exact hF
  · intro dt st h
    rw [tide_step_eq]
    by_cases h2 : dt ≤ now
    · simp [h2, h, bumpMax]
    · simp [h2]
  · intro dt st h
    rw [tide_step_eq]
    by_cases h2 : now < dt
    · simp [h2, h, bumpMin]
    · simp [h2]

/-- C2 witness: the analyzer characterization holds on a concrete list
with one high-tide and one low-tide record around now equal to 100. -/
theorem C2_analyzer_witness :
    AnalyzerSpec 100 [⟨TimeStr.valid 50, "H"⟩, ⟨TimeStr.valid 30, "L"⟩] :=
  (C2_analyzer 100 [⟨TimeStr.valid 50, "H"⟩, ⟨TimeStr.valid 30, "L"⟩]
    (by
      intro p hp
      rcases List.mem_cons.mp hp with rfl | hp2
      · exact ⟨50, rfl⟩
      · rcases List.mem_cons.mp hp2 with rfl | hp3
        · exact ⟨30, rfl⟩
        · exact absurd hp3 (List.not_mem_nil p))).1

/-- C8: on a prediction list containing only well-formed low-tide records
the analyzer returns two absent candidates and the selected sampling time
is the configured default. -/
theorem C8_only_low_tides (now : DateTime) (default_samp_time : Nat)
    (preds : List Prediction)
    (h : ∀ p ∈ preds, p.type = "L" ∧ ∃ d, p.t = TimeStr.valid d) :
    find_closest_high_tides now preds = .ok (none, none) ∧
    tide_samp_time (some preds) now default_samp_time = .ok default_samp_time := by
  have hv : ∀ p ∈ preds, ∃ d, p.t = TimeStr.valid d := fun p hp => (h p hp).2
  have hpc : pastCandidates now preds = [] := by
    refine List.filterMap_eq_nil_iff.mpr ?_
    intro p hp
    obtain ⟨hL, d, hd⟩ := h p hp
    rw [hd]
    simp [hL]
  have hfc : futureCandidates now preds = [] := by
    refine List.filterMap_eq_nil_iff.mpr ?_
    intro p hp
    obtain ⟨hL, d, hd⟩ := h p hp
    rw [hd]
    simp [hL]
  have hfind : find_closest_high_tides now preds = .ok (none, none) := by
    have := fchtAux_ok now preds (none, none) hv
    rwa [hpc, hfc] at this
  refine ⟨hfind, ?_⟩
  rw [tide_samp_time_some now default_samp_time preds (none, none) hfind]
  rfl

/-- C8 witness: a single well-formed low-tide record yields two absent
candidates and the default sampling time. -/
theorem C8_only_low_tides_witness :
    find_closest_high_tides 100 [⟨TimeStr.valid 40, "L"⟩] = .ok (none, none) ∧
    tide_samp_time (some [⟨TimeStr.valid 40, "L"⟩]) 100 300 = .ok 300 :=
  C8_only_low_tides 100 300 [⟨TimeStr.valid 40, "L"⟩]
    (by
      intro p hp
      rcases List.mem_cons.mp hp with rfl | hp2
      · exact ⟨rfl, 40, rfl⟩
      · exact absurd hp2 (List.not_mem_nil p))

/-- C3: given a past candidate at or before now and a future candidate
after now, the selector takes the one with the smaller absolute time
difference from now, preferring the past one on an exact tie, takes a
single candidate when only one exists, and takes nothing when neither
exists. -/
theorem C3_choose_closest (now p f : DateTime) (hp : p ≤ now) (hf : now < f) :
    choose_closest_high_tide now (some p) (some f) =
      some (if ((now : Int) - p).natAbs ≤ ((f : Int) - now).natAbs then p else f) ∧
    choose_closest_high_tide now (some p) none = some p ∧
    choose_closest_high_tide now none (some f) = some f ∧
    choose_closest_high_tide now none none = none := by
  refine ⟨?_, rfl, rfl, rfl⟩
  have key : ((now : Int) - p ≤ (f : Int) - now) ↔
      (((now : Int) - p).natAbs ≤ ((f : Int) - now).natAbs) := by
    rw [← Int.ofNat_le, Int.natCast_natAbs, Int.natCast_natAbs,
      abs_of_nonneg (Int.sub_nonneg.mpr (Int.ofNat_le.mpr hp)),
      abs_of_nonneg (Int.sub_nonneg.mpr (Int.ofNat_le.mpr (Nat.le_of_lt hf)))]
  simp only [choose_closest_high_tide]
  by_cases hc : (now : Int) - p ≤ (f : Int) - now
  · rw [if_pos hc, if_pos (key.mp hc)]
  · rw [if_neg hc, if_neg (fun hcc => hc (key.mpr hcc))]

/-- C3 witness: with past at 90 minutes before now and future at 60
minutes after now the selector takes the future candidate, whose absolute
difference is smaller. -/
theorem C3_choose_closest_witness :
    (5400000000 : Nat) ≤ 10800000000 ∧ (10800000000 : Nat) < 14400000000 ∧
    choose_closest_high_tide 10800000000 (some 5400000000) (some 14400000000) =
      some 14400000000 := by
  refine ⟨by decide, by decide, ?_⟩
  have h := (C3_choose_closest 10800000000 5400000000 14400000000
    (by decide) (by decide)).1
  rw [h]
  norm_num

/-- C4 counterexample: with the configured default itself equal to 1500
seconds and an empty prediction list, the sampling time is 1500 although
no closest high tide was identified, refuting the only-if direction of
the claim as stated. -/
theorem C4_counterexample :
    tide_samp_time (some []) 0 1500 = .ok 1500 ∧
    find_closest_high_tides 0 [] = .ok (none, none) ∧
    ¬ HighTideCond 0 (none, none) := by
  refine ⟨rfl, rfl, ?_⟩
  rintro ⟨t, ht, _⟩
  simp [choose_closest_high_tide] at ht

/-- C4 amended: for every run in which tide data was fetched and parsed,
the sampling interval is 1500 seconds whenever a closest high tide was
identified and now lies within two hours before and three hours after the
tide rounded to the nearest hour, and equals the configured default in
all other cases; the interval pins down the mode (is 1500 only in
high-tide mode) whenever the configured default is not itself 1500. -/
theorem C4_interval_selection (now : DateTime) (default_samp_time : Nat)
    (preds : List Prediction)
    (hv : ∀ p ∈ preds, ∃ d, p.t = TimeStr.valid d) :
    ∃ st : TideState,
      find_closest_high_tides now preds = .ok st ∧
      (HighTideCond now st →
        tide_samp_time (some preds) now default_samp_time = .ok (25 * 60)) ∧
      (¬ HighTideCond now st →
        tide_samp_time (some preds) now default_samp_time = .ok default_samp_time) ∧
      (default_samp_time ≠ 25 * 60 →
        (tide_samp_time (some preds) now default_samp_time = .ok (25 * 60) ↔
          HighTideCond now st)) := by
  have hfind : find_closest_high_tides now preds =
      .ok ((pastCandidates now preds).foldl bumpMax none,
           (futureCandidates now preds).foldl bumpMin none) :=
    fchtAux_ok now preds (none, none) hv
  set st : TideState := ((pastCandidates now preds).foldl bumpMax none,
    (futureCandidates now preds).foldl bumpMin none) with hst
  have hts := tide_samp_time_some now default_samp_time preds st hfind
  obtain ⟨hsel1, hsel2⟩ := select_samp_time_eq now default_samp_time st
  refine ⟨st, hfind, ?_, ?_, ?_⟩
  · intro hc
    rw [hts, hsel1 hc]
  · intro hc
    rw [hts, hsel2 hc]
  · intro hd
    constructor
    · intro heq
      by_cases hc : HighTideCond now st
      · exact hc
      · rw [hts, hsel2 hc] at heq
        exact absurd (Except.ok.inj heq) hd
    · intro hc
      rw [hts, hsel1 hc]

/-- C4 witness: one high-tide record exactly at now gives the 1500 second
interval, and the iff holds with the default 300. -/
theorem C4_interval_selection_witness :
    ∃ st : TideState,
      find_closest_high_tides 7200000000 [⟨TimeStr.valid 7200000000, "H"⟩] = .ok st ∧
      (HighTideCond 7200000000 st →
        tide_samp_time (some [⟨TimeStr.valid 7200000000, "H"⟩]) 7200000000 300 =
          .ok (25 * 60)) ∧
      (¬ HighTideCond 7200000000 st →
        tide_samp_time (some [⟨TimeStr.valid 7200000000, "H"⟩]) 7200000000 300 =
          .ok 300) ∧
      ((300 : Nat) ≠ 25 * 60 →
        (tide_samp_time (some [⟨TimeStr.valid 7200000000, "H"⟩]) 7200000000 300 =
            .ok (25 * 60) ↔ HighTideCond 7200000000 st)) :=
  C4_interval_selection 7200000000 300 [⟨TimeStr.valid 7200000000, "H"⟩]
    (by
      intro p hp
      rcases List.mem_cons.mp hp with rfl | hp2
      · exact ⟨7200000000, rfl⟩
      · exact absurd hp2 (List.not_mem_nil p))

/-- C6 counterexample: with the configured default itself equal to 1500
seconds, a run at minute 30 whose mode is not high-tide (empty prediction
list) still launches the child process, refuting the claim as stated. -/
theorem C6_counterexample :
    tide_samp_time (some []) 0 1500 = .ok 1500 ∧
    find_closest_high_tides 0 [] = .ok (none, none) ∧
    ¬ HighTideCond 0 (none, none) ∧
    launches 1500 30 = true := by
  refine ⟨rfl, rfl, ?_, rfl⟩
  rintro ⟨t, ht, _⟩
  simp [choose_closest_high_tide] at ht

/-- C6 amended: for every run in which tide data was fetched and parsed
and whose configured default is not itself 1500 seconds, the child process
is not invoked exactly when the current minute is 30 and high-tide mode
was not selected; at minute 30 in high-tide mode it is still invoked. -/
theorem C6_minute30_gate (now : DateTime) (current_minute default_samp_time : Nat)
    (preds : List Prediction)
    (hv : ∀ p ∈ preds, ∃ d, p.t = TimeStr.valid d)
    (hd : default_samp_time ≠ 25 * 60) :
    ∃ (st : TideState) (samp : Nat),
      find_closest_high_tides now preds = .ok st ∧
      tide_samp_time (some preds) now default_samp_time = .ok samp ∧
      (launches samp current_minute = false ↔
        (current_minute = 30 ∧ ¬ HighTideCond now st)) ∧
      (current_minute = 30 → HighTideCond now st →
        launches samp current_minute = true) := by
  have hfind : find_closest_high_tides now preds =
      .ok ((pastCandidates now preds).foldl bumpMax none,
           (futureCandidates now preds).foldl bumpMin none) :=
    fchtAux_ok now preds (none, none) hv
  set st : TideState := ((pastCandidates now preds).foldl bumpMax none,
    (futureCandidates now preds).foldl bumpMin none) with hst
  have hts := tide_samp_time_some now default_samp_time preds st hfind
  obtain ⟨hsel1, hsel2⟩ := select_samp_time_eq now default_samp_time st
  refine ⟨st, select_samp_time now default_samp_time st, hfind, hts, ?_, ?_⟩
  · rw [launches_eq_false_iff]
    constructor
    · rintro ⟨hm, hs⟩
      refine ⟨hm, fun hc => hs (hsel1 hc)⟩
    · rintro ⟨hm, hc⟩
      exact ⟨hm, by rw [hsel2 hc]; exact hd⟩
  · intro _ hc
    rw [hsel1 hc]
    simp [launches]

/-- C6 witness: at minute 30 with a non-1500 default and one high-tide
record exactly at now, high-tide mode is selected and the gate iff holds
on the concrete run. -/
theorem C6_minute30_gate_witness :
    ∃ (st : TideState) (samp : Nat),
      find_closest_high_tides 7200000000 [⟨TimeStr.valid 7200000000, "H"⟩] = .ok st ∧
      tide_samp_time (some [⟨TimeStr.valid 7200000000, "H"⟩]) 7200000000 300 = .ok samp ∧
      (launches samp 30 = false ↔ ((30 : Nat) = 30 ∧ ¬ HighTideCond 7200000000 st)) ∧
      ((30 : Nat) = 30 → HighTideCond 7200000000 st → launches samp 30 = true) :=
  C6_minute30_gate 7200000000 30 300 [⟨TimeStr.valid 7200000000, "H"⟩]
    (by
      intro p hp
      rcases List.mem_cons.mp hp with rfl | hp2
      · exact ⟨7200000000, rfl⟩
      · exact absurd hp2 (List.not_mem_nil p))
    (by decide)

/-- C7 counterexample: an HTTP success whose body parses to a value that
is not an object makes the tide client raise AttributeError, an exception
propagated to the caller, refuting the claim that every failure of the
call is reported as the absent-data signal and never as an exception. -/
theorem C7_counterexample :
    get_tide_predictions (.response true .nonObject) = .error .attributeError :=
  rfl

/-- C7 amended: the tide client returns the predictions list when the
HTTP call succeeds with a parseable object body, and returns the
absent-data signal, not an exception, on a transport error, a non-success
status or an unparseable body; however, when the call succeeds but the
body parses to a non-object value, the client raises AttributeError,
which does propagate to the caller. -/
theorem C7_tide_client (r : HttpResult) :
    (∀ l, r = .response true (.objWithPredictions l) →
      get_tide_predictions r = .ok (some l)) ∧
    (r = .transportError → get_tide_predictions r = .ok none) ∧
    (∀ b, r = .response false b → get_tide_predictions r = .ok none) ∧
    (r = .response true .malformed → get_tide_predictions r = .ok none) ∧
    (r = .response true .nonObject →
      get_tide_predictions r = .error .attributeError) := by
  refine ⟨?_, ?_, ?_, ?_, ?_⟩
  · intro l hl
    subst hl
    rfl
  · intro h
    subst h
    rfl
  · intro b hb
    subst hb
    rfl
  · intro h
    subst h
    rfl
  · intro h
    subst h
    rfl

/-- C7 witness: the five outcome shapes evaluated on concrete fetch
results. -/
theorem C7_tide_client_witness :
    get_tide_predictions (.response true (.objWithPredictions [])) = .ok (some []) ∧
    get_tide_predictions .transportError = .ok none ∧
    get_tide_predictions (.response false .malformed) = .ok none ∧
    get_tide_predictions (.response true .malformed) = .ok none ∧
    get_tide_predictions (.response true .nonObject) = .error .attributeError :=
  ⟨(C7_tide_client (.response true (.objWithPredictions []))).1 [] rfl,
   (C7_tide_client .transportError).2.1 rfl,
   (C7_tide_client (.response false .malformed)).2.2.1 .malformed rfl,
   (C7_tide_client (.response true .malformed)).2.2.2.1 rfl,
   (C7_tide_client (.response true .nonObject)).2.2.2.2 rfl⟩

/-- C10: a parseable object body without the predictions key yields the
empty list, not the absent-data signal, and the caller then takes the
analysis path with no candidates and settles on the configured default
sampling time. -/
theorem C10_missing_predictions_key (now : DateTime) (default_samp_time : Nat) :
    get_tide_predictions (.response true .objWithoutPredictions) = .ok (some []) ∧
    get_tide_predictions (.response true .objWithoutPredictions) ≠ .ok none ∧
    tide_samp_time (some []) now default_samp_time = .ok default_samp_time := by
  refine ⟨rfl, fun h => Option.noConfusion (Except.ok.inj h), rfl⟩

/-- C1 evidence: on the branch where the config file loads successfully
the run raises UnboundLocalError at the tide fetch (the coops variable is
only assigned in the failure branch), or KeyError earlier when fqdn_ip is
absent; with a fetched record whose t field is malformed it raises
ValueError; only the config-failure branch with well-formed records ends
normally with the defaults. -/
theorem C1_crash_evidence :
    runMain (some ⟨some "10.0.0.1", none⟩) (fun _ => none) 0 =
      .error .unboundLocalError ∧
    runMain (some ⟨none, some 600⟩) (fun _ => none) 0 = .error .keyError ∧
    runMain none (fun _ => some [⟨TimeStr.malformed, "H"⟩]) 0 =
      .error .valueError ∧
    runMain none (fun _ => none) 0 = .ok ⟨DEFAULT_SAMP_TIME, true⟩ :=
  ⟨rfl, rfl, rfl, rfl⟩

end LivoxLaunch
